import Mathlib

/-!
Verification of the `btcid` Go client library (`src/btcid.go`).

The development shallowly embeds the library: pure helpers from the Go
standard library that the source calls (`crypto/hmac` + `crypto/sha512`,
`encoding/hex`, `net/url` query encoding, `strconv.FormatInt`,
`encoding/json` unmarshalling into the fixed shapes the source uses) are
modelled as executable Lean functions on `Nat`-valued bytes and `String`s,
HTTP and the wall clock are modelled as an explicit `World` oracle, and the
exported operations (`New`, `newPrvReq`, `newPubReq`, `GetTicker`,
`GetTrades`, `GetDepth`, `GetInfo`) are translated statement by statement.
Methods with pointer receivers are embedded in state-passing style: each
returns its result together with the receiver state at return.
-/

namespace Btcid

/-! ## Bytes, hex, UTF-8 -/

/-- Truncation to a 64-bit machine word. -/
def w64 (x : Nat) : Nat := x % 18446744073709551616

/-- Right rotation of a 64-bit word. -/
def rotr (n x : Nat) : Nat := w64 ((x >>> n) ||| (x <<< (64 - n)))

/-- Lowercase hexadecimal digit, as produced by Go `encoding/hex`. -/
def hexDigit (n : Nat) : Char :=
  if n < 10 then Char.ofNat (48 + n) else Char.ofNat (87 + n)

/-- Go `hex.EncodeToString`: lowercase hex, two digits per byte. -/
def hexEncode (bs : List Nat) : String :=
  String.mk ((bs.map (fun b => [hexDigit (b / 16), hexDigit (b % 16)])).flatten)

/-- UTF-8 encoding of one character (Go strings are UTF-8 byte sequences). -/
def utf8Bytes (c : Char) : List Nat :=
  let n := c.toNat
  if n < 0x80 then [n]
  else if n < 0x800 then
    [0xc0 ||| (n >>> 6), 0x80 ||| (n &&& 0x3f)]
  else if n < 0x10000 then
    [0xe0 ||| (n >>> 12), 0x80 ||| ((n >>> 6) &&& 0x3f), 0x80 ||| (n &&& 0x3f)]
  else
    [0xf0 ||| (n >>> 18), 0x80 ||| ((n >>> 12) &&& 0x3f),
     0x80 ||| ((n >>> 6) &&& 0x3f), 0x80 ||| (n &&& 0x3f)]

/-- The bytes of a Go string (`[]byte(s)`): UTF-8. -/
def strBytes (s : String) : List Nat := (s.data.map utf8Bytes).flatten

/-! ## SHA-512 (FIPS 180-4), as used by Go `crypto/sha512` -/

/-- SHA-512 round constants (the FIPS 180-4 table, written in decimal). -/
def sha512K : Array Nat := #[
  4794697086780616226, 8158064640168781261, 13096744586834688815,
  16840607885511220156, 4131703408338449720, 6480981068601479193,
  10538285296894168987, 12329834152419229976, 15566598209576043074,
  1334009975649890238, 2608012711638119052, 6128411473006802146,
  8268148722764581231, 9286055187155687089, 11230858885718282805,
  13951009754708518548, 16472876342353939154, 17275323862435702243,
  1135362057144423861, 2597628984639134821, 3308224258029322869,
  5365058923640841347, 6679025012923562964, 8573033837759648693,
  10970295158949994411, 12119686244451234320, 12683024718118986047,
  13788192230050041572, 14330467153632333762, 15395433587784984357,
  489312712824947311, 1452737877330783856, 2861767655752347644,
  3322285676063803686, 5560940570517711597, 5996557281743188959,
  7280758554555802590, 8532644243296465576, 9350256976987008742,
  10552545826968843579, 11727347734174303076, 12113106623233404929,
  14000437183269869457, 14369950271660146224, 15101387698204529176,
  15463397548674623760, 17586052441742319658, 1182934255886127544,
  1847814050463011016, 2177327727835720531, 2830643537854262169,
  3796741975233480872, 4115178125766777443, 5681478168544905931,
  6601373596472566643, 7507060721942968483, 8399075790359081724,
  8693463985226723168, 9568029438360202098, 10144078919501101548,
  10430055236837252648, 11840083180663258601, 13761210420658862357,
  14299343276471374635, 14566680578165727644, 15097957966210449927,
  16922976911328602910, 17689382322260857208, 500013540394364858,
  748580250866718886, 1242879168328830382, 1977374033974150939,
  2944078676154940804, 3659926193048069267, 4368137639120453308,
  4836135668995329356, 5532061633213252278, 6448918945643986474,
  6902733635092675308, 7801388544844847127]

/-- The eight working variables of the SHA-512 compression function. -/
structure Sha512State where
  a : Nat
  b : Nat
  c : Nat
  d : Nat
  e : Nat
  f : Nat
  g : Nat
  h : Nat
deriving Repr, DecidableEq

/-- SHA-512 initial hash value (FIPS 180-4, written in decimal). -/
def sha512H0 : Sha512State :=
  ⟨7640891576956012808, 13503953896175478587, 4354685564936845355,
   11912009170470909681, 5840696475078001361, 11170449401992604703,
   2270897969802886507, 6620516959819538809⟩

def ch (x y z : Nat) : Nat := (x &&& y) ^^^ ((w64 (18446744073709551615 - x)) &&& z)

def maj (x y z : Nat) : Nat := (x &&& y) ^^^ (x &&& z) ^^^ (y &&& z)

def bigSigma0 (x : Nat) : Nat := rotr 28 x ^^^ rotr 34 x ^^^ rotr 39 x

def bigSigma1 (x : Nat) : Nat := rotr 14 x ^^^ rotr 18 x ^^^ rotr 41 x

def smallSigma0 (x : Nat) : Nat := rotr 1 x ^^^ rotr 8 x ^^^ (x >>> 7)

def smallSigma1 (x : Nat) : Nat := rotr 19 x ^^^ rotr 61 x ^^^ (x >>> 6)

/-- Big-endian 64-bit words from a byte list (groups of 8). -/
def bytesToWords : List Nat → List Nat
  | b0 :: b1 :: b2 :: b3 :: b4 :: b5 :: b6 :: b7 :: rest =>
      (((((((b0 * 256 + b1) * 256 + b2) * 256 + b3) * 256 + b4) * 256 + b5) * 256
        + b6) * 256 + b7) :: bytesToWords rest
  | _ => []

/-- Big-endian bytes of a 64-bit word. -/
def wordBytes (w : Nat) : List Nat :=
  [(w >>> 56) % 256, (w >>> 48) % 256, (w >>> 40) % 256, (w >>> 32) % 256,
   (w >>> 24) % 256, (w >>> 16) % 256, (w >>> 8) % 256, w % 256]

/-- Message schedule: extend the 16 block words to 80. -/
def sha512Schedule (w0 : Array Nat) : Array Nat :=
  (List.range 64).foldl (fun w i =>
    let t := i + 16
    w.push (w64 (smallSigma1 (w.getD (t - 2) 0) + w.getD (t - 7) 0 +
                 smallSigma0 (w.getD (t - 15) 0) + w.getD (t - 16) 0))) w0

/-- One SHA-512 round. -/
def sha512Round (k wt : Nat) (s : Sha512State) : Sha512State :=
  let t1 := w64 (s.h + bigSigma1 s.e + ch s.e s.f s.g + k + wt)
  let t2 := w64 (bigSigma0 s.a + maj s.a s.b s.c)
  ⟨w64 (t1 + t2), s.a, s.b, s.c, w64 (s.d + t1), s.e, s.f, s.g⟩

/-- SHA-512 compression of one 128-byte block. -/
def sha512Compress (hv : Sha512State) (block : List Nat) : Sha512State :=
  let w := sha512Schedule (Array.mk (bytesToWords block))
  let s := (List.range 80).foldl
    (fun s i => sha512Round (sha512K.getD i 0) (w.getD i 0) s) hv
  ⟨w64 (hv.a + s.a), w64 (hv.b + s.b), w64 (hv.c + s.c), w64 (hv.d + s.d),
   w64 (hv.e + s.e), w64 (hv.f + s.f), w64 (hv.g + s.g), w64 (hv.h + s.h)⟩

/-- Big-endian 16-byte encoding of the bit length. -/
def lenBytes16 (n : Nat) : List Nat :=
  (List.range 16).map (fun i => (n >>> (8 * (15 - i))) % 256)

/-- SHA-512 padding: `0x80`, zeros to 112 mod 128, then the 128-bit length. -/
def sha512Pad (msg : List Nat) : List Nat :=
  let L := msg.length
  let k := (239 - L % 128) % 128
  msg ++ (0x80 :: List.replicate k 0) ++ lenBytes16 (L * 8)

/-- Split into 128-byte blocks (fuel-indexed; fuel `l.length` suffices). -/
def blocks128Aux : Nat → List Nat → List (List Nat)
  | 0, _ => []
  | _, [] => []
  | fuel + 1, l => l.take 128 :: blocks128Aux fuel (l.drop 128)

def blocks128 (l : List Nat) : List (List Nat) := blocks128Aux l.length l

/-- SHA-512 of a byte list, yielding the 64 digest bytes. -/
def sha512 (msg : List Nat) : List Nat :=
  let s := (blocks128 (sha512Pad msg)).foldl sha512Compress sha512H0
  ([s.a, s.b, s.c, s.d, s.e, s.f, s.g, s.h].map wordBytes).flatten

/-- HMAC-SHA512 (RFC 2104 with SHA-512, block size 128), as in Go
`hmac.New(sha512.New, key)`. -/
def hmacSha512 (key msg : List Nat) : List Nat :=
  let k0 := if key.length > 128 then sha512 key else key
  let kp := k0 ++ List.replicate (128 - k0.length) 0
  let ipadKey := kp.map (fun b => b ^^^ 0x36)
  let opadKey := kp.map (fun b => b ^^^ 0x5c)
  sha512 (opadKey ++ sha512 (ipadKey ++ msg))

/-! ## Go `net/url` query encoding -/

/-- Bytes Go `url.QueryEscape` leaves unescaped: ASCII alphanumerics and
`-`, `_`, `.`, `~`. -/
def isUnreservedQueryByte (b : Nat) : Bool :=
  (65 ≤ b && b ≤ 90) || (97 ≤ b && b ≤ 122) || (48 ≤ b && b ≤ 57) ||
  b == 45 || b == 95 || b == 46 || b == 126

/-- Uppercase hexadecimal digit, as used by Go percent-encoding. -/
def hexDigitUpper (n : Nat) : Char :=
  if n < 10 then Char.ofNat (48 + n) else Char.ofNat (55 + n)

/-- Go `url.QueryEscape`: space becomes `+`, unreserved bytes pass through,
everything else becomes `%XX` with uppercase hex. -/
def queryEscape (s : String) : String :=
  String.mk (((strBytes s).map (fun b =>
    if b == 32 then ['+']
    else if isUnreservedQueryByte b then [Char.ofNat b]
    else ['%', hexDigitUpper (b / 16), hexDigitUpper (b % 16)])).flatten)

/-- Go `url.Values.Set`: replace the key's value list with the singleton. -/
def valuesSet : List (String × List String) → String → String →
    List (String × List String)
  | [], k, v => [(k, [v])]
  | (k', vs) :: rest, k, v =>
      if k' = k then (k, [v]) :: rest else (k', vs) :: valuesSet rest k v

/-- Lexicographic order on character lists; on UTF-8 strings this agrees
with the byte-wise order Go's `sort.Strings` uses. -/
def charListLt : List Char → List Char → Bool
  | [], [] => false
  | [], _ :: _ => true
  | _ :: _, [] => false
  | a :: as, b :: bs =>
      if a.toNat < b.toNat then true
      else if b.toNat < a.toNat then false
      else charListLt as bs

def strLt (a b : String) : Bool := charListLt a.data b.data

def insertString (k : String) : List String → List String
  | [] => [k]
  | x :: xs => if strLt k x then k :: x :: xs else x :: insertString k xs

/-- Ascending sort of the keys, as `url.Values.Encode` does. -/
def sortStrings : List String → List String
  | [] => []
  | x :: xs => insertString x (sortStrings xs)

/-- Go `url.Values.Encode`: keys in sorted order, each value emitted as
`escape(k)=escape(v)`, pairs joined by `&`. -/
def valuesEncode (vs : List (String × List String)) : String :=
  let ks := sortStrings (vs.map Prod.fst)
  String.intercalate "&"
    ((ks.map (fun k => ((vs.lookup k).getD []).map
      (fun v => queryEscape k ++ "=" ++ queryEscape v))).flatten)

/-! ## Go `strconv.FormatInt(_, 10)` and decimal values -/

/-- Little-endian decimal digits, fuel-indexed (fuel `n` suffices). -/
def natDigitsAux : Nat → Nat → List Nat
  | 0, _ => []
  | _ + 1, 0 => []
  | fuel + 1, n => n % 10 :: natDigitsAux fuel (n / 10)

def natDigits (n : Nat) : List Nat := natDigitsAux n n

/-- Decimal representation of a natural number. -/
def natRepr (n : Nat) : String :=
  if n = 0 then "0"
  else String.mk ((natDigits n).reverse.map (fun d => Char.ofNat (48 + d)))

/-- Go `strconv.FormatInt(i, 10)`. -/
def formatInt (i : Int) : String :=
  if i < 0 then "-" ++ natRepr (-i).toNat else natRepr i.toNat

/-- Numeric value denoted by a decimal digit string. -/
def decValue (s : String) : Nat :=
  Nat.ofDigits 10 ((s.data.map (fun c => c.toNat - 48)).reverse)

/-! ## JSON values and parser (Go `encoding/json` syntax) -/

/-- JSON values. Numbers keep their sign, integer part, and whether the
literal had a fraction or exponent (Go rejects such literals for `int`
targets). -/
inductive Json where
  | null
  | bool (b : Bool)
  | num (neg : Bool) (intPart : Nat) (hasExtra : Bool)
  | str (s : String)
  | arr (elems : List Json)
  | obj (fields : List (String × Json))

def skipWs : List Char → List Char
  | [] => []
  | c :: cs =>
      if c == ' ' || c == '\t' || c == '\n' || c == '\r' then skipWs cs
      else c :: cs

def isDigitChar (c : Char) : Bool := 48 ≤ c.toNat && c.toNat ≤ 57

def hexVal (c : Char) : Option Nat :=
  if isDigitChar c then some (c.toNat - 48)
  else if 97 ≤ c.toNat && c.toNat ≤ 102 then some (c.toNat - 87)
  else if 65 ≤ c.toNat && c.toNat ≤ 70 then some (c.toNat - 55)
  else none

/-- Four hex digits of a `\u` escape. -/
def parseHex4 : List Char → Option (Nat × List Char)
  | c0 :: c1 :: c2 :: c3 :: rest =>
      match hexVal c0, hexVal c1, hexVal c2, hexVal c3 with
      | some h0, some h1, some h2, some h3 =>
          some (((h0 * 16 + h1) * 16 + h2) * 16 + h3, rest)
      | _, _, _, _ => none
  | _ => none

/-- String body after the opening quote; handles the JSON escapes and
surrogate pairs the way Go does (invalid surrogates become U+FFFD). -/
def parseStringBody : Nat → List Char → Option (List Char × List Char)
  | 0, _ => none
  | _, [] => none
  | fuel + 1, c :: rest =>
      if c == '"' then some ([], rest)
      else if c == '\\' then
        match rest with
        | [] => none
        | e :: rest2 =>
          let cont := fun (ch : Char) (rem : List Char) =>
            (parseStringBody fuel rem).map (fun p => (ch :: p.1, p.2))
          if e == '"' then cont '"' rest2
          else if e == '\\' then cont '\\' rest2
          else if e == '/' then cont '/' rest2
          else if e == 'b' then cont (Char.ofNat 8) rest2
          else if e == 'f' then cont (Char.ofNat 12) rest2
          else if e == 'n' then cont '\n' rest2
          else if e == 'r' then cont '\r' rest2
          else if e == 't' then cont '\t' rest2
          else if e == 'u' then
            match parseHex4 rest2 with
            | none => none
            | some (n, rest3) =>
              if 0xD800 ≤ n && n < 0xDC00 then
                match rest3 with
                | '\\' :: 'u' :: rest4 =>
                  match parseHex4 rest4 with
                  | some (n2, rest5) =>
                      if 0xDC00 ≤ n2 && n2 < 0xE000 then
                        cont (Char.ofNat (0x10000 + (n - 0xD800) * 0x400 +
                          (n2 - 0xDC00))) rest5
                      else cont (Char.ofNat 0xFFFD) rest3
                  | none => cont (Char.ofNat 0xFFFD) rest3
                | _ => cont (Char.ofNat 0xFFFD) rest3
              else if 0xDC00 ≤ n && n < 0xE000 then cont (Char.ofNat 0xFFFD) rest3
              else cont (Char.ofNat n) rest3
          else none
      else if c.toNat < 0x20 then none
      else (parseStringBody fuel rest).map (fun p => (c :: p.1, p.2))

def takeDigits : List Char → List Char × List Char
  | [] => ([], [])
  | c :: cs =>
      if isDigitChar c then
        let (d, r) := takeDigits cs
        (c :: d, r)
      else ([], c :: cs)

def digitsVal (ds : List Char) : Nat := ds.foldl (fun a c => a * 10 + (c.toNat - 48)) 0

/-- JSON number grammar: `-?(0|[1-9][0-9]*)(\.[0-9]+)?([eE][+-]?[0-9]+)?`. -/
def parseNumber (cs : List Char) : Option ((Bool × Nat × Bool) × List Char) :=
  let (neg, cs1) := match cs with
    | '-' :: r => (true, r)
    | _ => (false, cs)
  let ipart : Option (Nat × List Char) := match cs1 with
    | '0' :: r => if (r.head?.map isDigitChar).getD false then none else some (0, r)
    | c :: r =>
        if isDigitChar c && c != '0' then
          let (ds, rr) := takeDigits (c :: r)
          some (digitsVal ds, rr)
        else none
    | [] => none
  match ipart with
  | none => none
  | some (v, r1) =>
    let frac : Option (Bool × List Char) := match r1 with
      | '.' :: r2 =>
          let (ds, rr) := takeDigits r2
          if ds.isEmpty then none else some (true, rr)
      | _ => some (false, r1)
    match frac with
    | none => none
    | some (hasFrac, r2) =>
      let expp : Option (Bool × List Char) := match r2 with
        | 'e' :: r3 | 'E' :: r3 =>
            let r4 := match r3 with
              | '+' :: rr => rr
              | '-' :: rr => rr
              | _ => r3
            let (ds, rr) := takeDigits r4
            if ds.isEmpty then none else some (true, rr)
        | _ => some (false, r2)
      match expp with
      | none => none
      | some (hasExp, r3) => some ((neg, v, hasFrac || hasExp), r3)

mutual

/-- One JSON value (leading whitespace allowed). -/
def parseValue : Nat → List Char → Option (Json × List Char)
  | 0, _ => none
  | fuel + 1, cs =>
    match skipWs cs with
    | [] => none
    | c :: rest =>
      if c == '\x7b' then
        (parseObjLoop fuel rest []).map (fun p => (Json.obj p.1, p.2))
      else if c == '[' then
        (parseArrLoop fuel rest []).map (fun p => (Json.arr p.1, p.2))
      else if c == '"' then
        (parseStringBody (rest.length + 1) rest).map
          (fun p => (Json.str (String.mk p.1), p.2))
      else if c == 't' then
        match rest with
        | 'r' :: 'u' :: 'e' :: r => some (Json.bool true, r)
        | _ => none
      else if c == 'f' then
        match rest with
        | 'a' :: 'l' :: 's' :: 'e' :: r => some (Json.bool false, r)
        | _ => none
      else if c == 'n' then
        match rest with
        | 'u' :: 'l' :: 'l' :: r => some (Json.null, r)
        | _ => none
      else
        (parseNumber (c :: rest)).map (fun p => (Json.num p.1.1 p.1.2.1 p.1.2.2, p.2))

/-- Array elements after `[` (or after a separating comma). -/
def parseArrLoop : Nat → List Char → List Json → Option (List Json × List Char)
  | 0, _, _ => none
  | fuel + 1, cs, acc =>
    let cs1 := skipWs cs
    match cs1 with
    | ']' :: r => if acc.isEmpty then some ([], r) else none
    | _ =>
      match parseValue fuel cs1 with
      | none => none
      | some (v, r) =>
        match skipWs r with
        | ',' :: r2 => parseArrLoop fuel r2 (acc ++ [v])
        | ']' :: r2 => some (acc ++ [v], r2)
        | _ => none

/-- Object members after `{` (or after a separating comma). -/
def parseObjLoop : Nat → List Char → List (String × Json) →
    Option (List (String × Json) × List Char)
  | 0, _, _ => none
  | fuel + 1, cs, acc =>
    let cs1 := skipWs cs
    match cs1 with
    | '\x7d' :: r => if acc.isEmpty then some ([], r) else none
    | '"' :: r =>
      match parseStringBody (r.length + 1) r with
      | none => none
      | some (kl, r2) =>
        match skipWs r2 with
        | ':' :: r3 =>
          match parseValue fuel r3 with
          | none => none
          | some (v, r4) =>
            match skipWs r4 with
            | ',' :: r5 => parseObjLoop fuel r5 (acc ++ [(String.mk kl, v)])
            | '\x7d' :: r5 => some (acc ++ [(String.mk kl, v)], r5)
            | _ => none
        | _ => none
    | _ => none

end

/-- Go `json.Unmarshal` syntax phase: the whole input must be one JSON
value followed only by whitespace. -/
def parseJson (s : String) : Option Json :=
  match parseValue (2 * s.length + 16) s.data with
  | some (v, rest) => if (skipWs rest).isEmpty then some v else none
  | none => none

/-! ## Typed decoding (Go `encoding/json` semantics for the shapes used) -/

/-- Keep the first of two saved decode errors, as Go's decoder does. -/
def firstErr (a b : Option String) : Option String :=
  match a with
  | some e => some e
  | none => b

/-- ASCII case folding; Go matches JSON keys to struct tags
case-insensitively. -/
def asciiFold (c : Char) : Char :=
  if 65 ≤ c.toNat && c.toNat ≤ 90 then Char.ofNat (c.toNat + 32) else c

def foldEq (a b : String) : Bool :=
  a.data.map asciiFold == b.data.map asciiFold

/-- Insert or overwrite a key in an association list (Go map update). -/
def assocSet : List (String × α) → String → α → List (String × α)
  | [], k, v => [(k, v)]
  | (k', v') :: rest, k, v =>
      if k' = k then (k, v) :: rest else (k', v') :: assocSet rest k v

/-- Decode into a `string` target holding `cur`: strings overwrite, `null`
is a no-op, anything else is a saved type error. -/
def decodeString (j : Json) (cur : String) : String × Option String :=
  match j with
  | .str s => (s, none)
  | .null => (cur, none)
  | _ => (cur, some "json: cannot unmarshal value into string")

/-- Decode into an `int` target: only integer literals are accepted. -/
def decodeInt (j : Json) (cur : Int) : Int × Option String :=
  match j with
  | .num neg v false => ((if neg then -(v : Int) else (v : Int)), none)
  | .num _ _ true => (cur, some "json: cannot unmarshal number into int")
  | .null => (cur, none)
  | _ => (cur, some "json: cannot unmarshal value into int")

/-! ## The response types of `btcid.go` -/

structure Ticker where
  High : String
  Low : String
  Last : String
  Buy : String
  Sell : String
deriving DecidableEq, Repr

structure Trade where
  Date : String
  Price : String
  Amount : String
  TID : String
  Type' : String
deriving DecidableEq, Repr

/-- Depth data: the Go `buy`/`sell` fields are loosely typed arrays of
arrays of arbitrary JSON values. -/
structure Depth where
  Buy : List (List Json)
  Sell : List (List Json)

structure UserInfo where
  Balance : List (String × Json)
  BalanceHold : List (String × Json)
  Address : List (String × String)
  UserID : String
  ProfilePicture : String
  Name : String
  ServerTime : Int
  Email : String

structure InfoRes where
  Success : Int
  Return : UserInfo

def zeroTicker : Ticker := ⟨"", "", "", "", ""⟩

def zeroTrade : Trade := ⟨"", "", "", "", ""⟩

def zeroDepth : Depth := ⟨[], []⟩

def zeroUserInfo : UserInfo := ⟨[], [], [], "", "", "", 0, ""⟩

def zeroInfoRes : InfoRes := ⟨0, zeroUserInfo⟩

/-- The anonymous envelope struct in `GetTicker`:
`struct \x7b Ticker Ticker `json:"ticker"` \x7d`. -/
structure TickerEnv where
  Ticker : Ticker
deriving DecidableEq, Repr

def zeroTickerEnv : TickerEnv := ⟨zeroTicker⟩

/-- Decode a JSON value into a `Ticker` holding `cur`: unknown keys are
ignored, field type errors are saved and decoding continues. -/
def decodeTicker (j : Json) (cur : Ticker) : Ticker × Option String :=
  match j with
  | .null => (cur, none)
  | .obj fields =>
      fields.foldl (fun acc kv =>
        let t := acc.1
        if foldEq kv.1 "high" then
          let r := decodeString kv.2 t.High
          ({ t with High := r.1 }, firstErr acc.2 r.2)
        else if foldEq kv.1 "low" then
          let r := decodeString kv.2 t.Low
          ({ t with Low := r.1 }, firstErr acc.2 r.2)
        else if foldEq kv.1 "last" then
          let r := decodeString kv.2 t.Last
          ({ t with Last := r.1 }, firstErr acc.2 r.2)
        else if foldEq kv.1 "buy" then
          let r := decodeString kv.2 t.Buy
          ({ t with Buy := r.1 }, firstErr acc.2 r.2)
        else if foldEq kv.1 "sell" then
          let r := decodeString kv.2 t.Sell
          ({ t with Sell := r.1 }, firstErr acc.2 r.2)
        else acc) (cur, none)
  | _ => (cur, some "json: cannot unmarshal value into Ticker")

def decodeTickerEnv (j : Json) (cur : TickerEnv) : TickerEnv × Option String :=
  match j with
  | .null => (cur, none)
  | .obj fields =>
      fields.foldl (fun acc kv =>
        if foldEq kv.1 "ticker" then
          let r := decodeTicker kv.2 acc.1.Ticker
          (⟨r.1⟩, firstErr acc.2 r.2)
        else acc) (cur, none)
  | _ => (cur, some "json: cannot unmarshal value into struct")

def decodeTrade (j : Json) (cur : Trade) : Trade × Option String :=
  match j with
  | .null => (cur, none)
  | .obj fields =>
      fields.foldl (fun acc kv =>
        let t := acc.1
        if foldEq kv.1 "date" then
          let r := decodeString kv.2 t.Date
          ({ t with Date := r.1 }, firstErr acc.2 r.2)
        else if foldEq kv.1 "price" then
          let r := decodeString kv.2 t.Price
          ({ t with Price := r.1 }, firstErr acc.2 r.2)
        else if foldEq kv.1 "amount" then
          let r := decodeString kv.2 t.Amount
          ({ t with Amount := r.1 }, firstErr acc.2 r.2)
        else if foldEq kv.1 "tid" then
          let r := decodeString kv.2 t.TID
          ({ t with TID := r.1 }, firstErr acc.2 r.2)
        else if foldEq kv.1 "type" then
          let r := decodeString kv.2 t.Type'
          ({ t with Type' := r.1 }, firstErr acc.2 r.2)
        else acc) (cur, none)
  | _ => (cur, some "json: cannot unmarshal value into Trade")

/-- Decode into `[]Trade`: the top value must be an array (or `null`);
element type errors are saved while the remaining elements decode. -/
def decodeTrades (j : Json) (cur : List Trade) : List Trade × Option String :=
  match j with
  | .null => (cur, none)
  | .arr es =>
      let rs := es.map (fun e => decodeTrade e zeroTrade)
      (rs.map Prod.fst, rs.foldl (fun a r => firstErr a r.2) none)
  | _ => (cur, some "json: cannot unmarshal value into []Trade")

/-- Decode into `[][]interface\x7b\x7d`. -/
def decodeArr2 (j : Json) (cur : List (List Json)) :
    List (List Json) × Option String :=
  match j with
  | .null => (cur, none)
  | .arr es =>
      let rs := es.map (fun e =>
        match e with
        | .null => (([] : List Json), (none : Option String))
        | .arr xs => (xs, none)
        | _ => ([], some "json: cannot unmarshal value into []interface"))
      (rs.map Prod.fst, rs.foldl (fun a r => firstErr a r.2) none)
  | _ => (cur, some "json: cannot unmarshal value into [][]interface")

def decodeDepth (j : Json) (cur : Depth) : Depth × Option String :=
  match j with
  | .null => (cur, none)
  | .obj fields =>
      fields.foldl (fun acc kv =>
        let d := acc.1
        if foldEq kv.1 "buy" then
          let r := decodeArr2 kv.2 d.Buy
          ({ d with Buy := r.1 }, firstErr acc.2 r.2)
        else if foldEq kv.1 "sell" then
          let r := decodeArr2 kv.2 d.Sell
          ({ d with Sell := r.1 }, firstErr acc.2 r.2)
        else acc) (cur, none)
  | _ => (cur, some "json: cannot unmarshal value into Depth")

/-- Decode into `map[string]interface\x7b\x7d`: entries merge into the
current map; any JSON value is accepted. -/
def decodeMapAny (j : Json) (cur : List (String × Json)) :
    List (String × Json) × Option String :=
  match j with
  | .null => (cur, none)
  | .obj fields => (fields.foldl (fun m kv => assocSet m kv.1 kv.2) cur, none)
  | _ => (cur, some "json: cannot unmarshal value into map")

/-- Decode into `map[string]string`: values must be strings; a failed
value still sets its key (to the zero string), the error is saved. -/
def decodeMapString (j : Json) (cur : List (String × String)) :
    List (String × String) × Option String :=
  match j with
  | .null => (cur, none)
  | .obj fields =>
      fields.foldl (fun acc kv =>
        let r := decodeString kv.2 ""
        (assocSet acc.1 kv.1 r.1, firstErr acc.2 r.2)) (cur, none)
  | _ => (cur, some "json: cannot unmarshal value into map")

def decodeUserInfo (j : Json) (cur : UserInfo) : UserInfo × Option String :=
  match j with
  | .null => (cur, none)
  | .obj fields =>
      fields.foldl (fun acc kv =>
        let u := acc.1
        if foldEq kv.1 "balance" then
          let r := decodeMapAny kv.2 u.Balance
          ({ u with Balance := r.1 }, firstErr acc.2 r.2)
        else if foldEq kv.1 "balance_hold" then
          let r := decodeMapAny kv.2 u.BalanceHold
          ({ u with BalanceHold := r.1 }, firstErr acc.2 r.2)
        else if foldEq kv.1 "address" then
          let r := decodeMapString kv.2 u.Address
          ({ u with Address := r.1 }, firstErr acc.2 r.2)
        else if foldEq kv.1 "user_id" then
          let r := decodeString kv.2 u.UserID
          ({ u with UserID := r.1 }, firstErr acc.2 r.2)
        else if foldEq kv.1 "profile_picture" then
          let r := decodeString kv.2 u.ProfilePicture
          ({ u with ProfilePicture := r.1 }, firstErr acc.2 r.2)
        else if foldEq kv.1 "name" then
          let r := decodeString kv.2 u.Name
          ({ u with Name := r.1 }, firstErr acc.2 r.2)
        else if foldEq kv.1 "server_time" then
          let r := decodeInt kv.2 u.ServerTime
          ({ u with ServerTime := r.1 }, firstErr acc.2 r.2)
        else if foldEq kv.1 "email" then
          let r := decodeString kv.2 u.Email
          ({ u with Email := r.1 }, firstErr acc.2 r.2)
        else acc) (cur, none)
  | _ => (cur, some "json: cannot unmarshal value into UserInfo")

def decodeInfoRes (j : Json) (cur : InfoRes) : InfoRes × Option String :=
  match j with
  | .null => (cur, none)
  | .obj fields =>
      fields.foldl (fun acc kv =>
        let i := acc.1
        if foldEq kv.1 "success" then
          let r := decodeInt kv.2 i.Success
          ({ i with Success := r.1 }, firstErr acc.2 r.2)
        else if foldEq kv.1 "return" then
          let r := decodeUserInfo kv.2 i.Return
          ({ i with Return := r.1 }, firstErr acc.2 r.2)
        else acc) (cur, none)
  | _ => (cur, some "json: cannot unmarshal value into InfoRes")

/-! ## `json.Unmarshal` into each target, from the zero value -/

def syntaxErrMsg : String := "invalid JSON"

def unmarshalTickerEnv (body : String) : TickerEnv × Option String :=
  match parseJson body with
  | none => (zeroTickerEnv, some syntaxErrMsg)
  | some j => decodeTickerEnv j zeroTickerEnv

def unmarshalTrades (body : String) : List Trade × Option String :=
  match parseJson body with
  | none => ([], some syntaxErrMsg)
  | some j => decodeTrades j []

def unmarshalDepth (body : String) : Depth × Option String :=
  match parseJson body with
  | none => (zeroDepth, some syntaxErrMsg)
  | some j => decodeDepth j zeroDepth

def unmarshalInfoRes (body : String) : InfoRes × Option String :=
  match parseJson body with
  | none => (zeroInfoRes, some syntaxErrMsg)
  | some j => decodeInfoRes j zeroInfoRes

/-! ## The client and its operations -/

/-- A `*http.Client` handle: either the package-level default client or a
caller-supplied instance. -/
inductive HTTPClientRef where
  | defaultClient
  | custom (id : Nat)
deriving DecidableEq, Repr

structure Client where
  APIKey : String
  Secret : String
  Domain : String
  HTTPClient : HTTPClientRef
deriving DecidableEq, Repr

def baseURL : String := "https://vip.bitcoin.co.id"

def pubAPIEndpoint : String := "/api"

def privAPIEndpoint : String := "/tapi"

def prvMethodGetInfo : String := "getInfo"

/-- `New`: assemble a client; a `nil` transport argument is replaced by
`http.DefaultClient`, the domain is set to the production base URL. -/
def New (APIKey Secret : String) (HTTPClient : Option HTTPClientRef) : Client :=
  { APIKey := APIKey
    Secret := Secret
    HTTPClient := match HTTPClient with
      | none => HTTPClientRef.defaultClient
      | some c => c
    Domain := baseURL }

/-- An HTTP request as the builders assemble it. -/
structure HTTPRequest where
  verb : String
  url : String
  body : String
  headers : List (String × String)
deriving DecidableEq, Repr

/-- `req.Header.Set`: replace the named header or append it. -/
def headerSet (hs : List (String × String)) (k v : String) :
    List (String × String) :=
  assocSet hs k v

/-- The environment the client runs against: the wall clock
(`time.Now().Unix()`) and the HTTP transport, which maps an issued
request to either a fully read response body or a transport error
(covering `http.Client.Do` and body-read failures). -/
structure World where
  now : Int
  respond : HTTPRequest → Except String String

inductive GoError where
  | transportError (msg : String)
  | decodeError (msg : String)
deriving DecidableEq, Repr

/-- The nonce `newPrvReq` generates: the current Unix time in seconds as
a decimal string (`strconv.FormatInt(time.Now().Unix(), 10)`). -/
def prvNonce (now : Int) : String := formatInt now

/-- The signed POST request assembled by `newPrvReq` before dispatch:
form body from `url.Values` with `method` and `nonce`, HMAC-SHA512
signature of the encoded body under the secret, three headers. -/
def prvReq (c : Client) (now : Int) (PrivateMethod : String) : HTTPRequest :=
  let nonce := prvNonce now
  let q := valuesSet (valuesSet [] "method" PrivateMethod) "nonce" nonce
  let queryString := valuesEncode q
  let url := c.Domain ++ privAPIEndpoint
  let signature := hexEncode (hmacSha512 (strBytes c.Secret) (strBytes queryString))
  let headers := headerSet (headerSet (headerSet [] "Key" c.APIKey)
    "Sign" signature) "Content-Type" "application/x-www-form-urlencoded"
  { verb := "POST", url := url, body := queryString, headers := headers }

/-- `newPrvReq`: build, sign and dispatch the private request, returning
the raw body or the transport error, together with the receiver state at
return (the method never writes to the receiver). -/
def newPrvReq (c : Client) (w : World) (PrivateMethod : String) :
    Except GoError String × Client :=
  match w.respond (prvReq c w.now PrivateMethod) with
  | .error e => (.error (.transportError e), c)
  | .ok body => (.ok body, c)

/-- `newPubReq`: `GET {domain}/api{endpoint}` with an empty body and no
headers set, returning the raw body or the transport error. -/
def newPubReq (c : Client) (w : World) (endpoint : String) :
    Except GoError String × Client :=
  let url := c.Domain ++ pubAPIEndpoint ++ endpoint
  match w.respond { verb := "GET", url := url, body := "", headers := [] } with
  | .error e => (.error (.transportError e), c)
  | .ok body => (.ok body, c)

/-- The `body` bytes a public operation passes to `json.Unmarshal`: the
response body, or the `nil` slice (empty bytes) when the builder failed
and the operation continued anyway. -/
def pubBody (c : Client) (w : World) (endpoint : String) : String :=
  match (newPubReq c w endpoint).1 with
  | .ok b => b
  | .error _ => ""

/-- The `body` bytes `GetInfo` passes to `json.Unmarshal`. -/
def prvBody (c : Client) (w : World) (PrivateMethod : String) : String :=
  match (newPrvReq c w PrivateMethod).1 with
  | .ok b => b
  | .error _ => ""

/-- `GetTicker`: fetch `/btc_idr/ticker`, decode the `ticker` envelope;
a decode failure is returned to the caller (the builder's error is only
printed). -/
def GetTicker (c : Client) (w : World) : (Ticker × Option GoError) × Client :=
  let body := pubBody c w "/btc_idr/ticker"
  let r := unmarshalTickerEnv body
  match r.2 with
  | some e => ((zeroTicker, some (.decodeError e)), c)
  | none => ((r.1.Ticker, none), c)

/-- `GetTrades`: fetch `/btc_idr/trades`, decode a bare array; both the
builder's error and the decode error are printed and dropped. -/
def GetTrades (c : Client) (w : World) :
    (List Trade × Option GoError) × Client :=
  let body := pubBody c w "/btc_idr/trades"
  let r := unmarshalTrades body
  ((r.1, none), c)

/-- `GetDepth`: fetch `/btc_idr/depth`, decode buy/sell arrays; both the
builder's error and the decode error are printed and dropped. -/
def GetDepth (c : Client) (w : World) : (Depth × Option GoError) × Client :=
  let body := pubBody c w "/btc_idr/depth"
  let r := unmarshalDepth body
  ((r.1, none), c)

/-- `GetInfo`: issue the signed `getInfo` call, decode the
`success`/`return` envelope, and return its `return` field; both the
builder's error and the decode error are printed and dropped, and the
`success` flag is never read. -/
def GetInfo (c : Client) (w : World) : (UserInfo × Option GoError) × Client :=
  let body := prvBody c w prvMethodGetInfo
  let r := unmarshalInfoRes body
  ((r.1.Return, none), c)

/-! ## Stub environments (the tests' stub server and a failing transport) -/

/-- A transport that answers every request with the given body, like the
test suite's stub server. -/
def constWorld (body : String) : World :=
  { now := 0, respond := fun _ => .ok body }

/-- A transport on which every request fails. -/
def errWorld : World :=
  { now := 0, respond := fun _ => .error "connection refused" }

/-! ## Helper lemmas -/

theorem ofDigits_natDigitsAux :
    ∀ fuel n, n ≤ fuel → Nat.ofDigits 10 (natDigitsAux fuel n) = n := by
  intro fuel
  induction fuel with
  | zero =>
      intro n h
      have : n = 0 := Nat.le_zero.mp h
      subst this
      simp [natDigitsAux, Nat.ofDigits]
  | succ f ih =>
      intro n h
      cases n with
      | zero => simp [natDigitsAux, Nat.ofDigits]
      | succ m =>
          show Nat.ofDigits 10 ((m + 1) % 10 :: natDigitsAux f ((m + 1) / 10)) = m + 1
          rw [Nat.ofDigits_cons, ih]
          · omega
          · have hlt : (m + 1) / 10 < m + 1 := Nat.div_lt_self (Nat.succ_pos m) (by omega)
            omega

theorem natDigitsAux_lt_ten :
    ∀ fuel n, ∀ d ∈ natDigitsAux fuel n, d < 10 := by
  intro fuel
  induction fuel with
  | zero => intro n d hd; simp [natDigitsAux] at hd
  | succ f ih =>
      intro n d hd
      cases n with
      | zero => simp [natDigitsAux] at hd
      | succ m =>
          have hd' : d ∈ (m + 1) % 10 :: natDigitsAux f ((m + 1) / 10) := hd
          rcases List.mem_cons.mp hd' with h | h
          · subst h; exact Nat.mod_lt _ (by omega)
          · exact ih _ _ h

theorem char_digit_toNat : ∀ d, d < 10 → (Char.ofNat (48 + d)).toNat = 48 + d := by
  decide

theorem decValue_natRepr (n : Nat) : decValue (natRepr n) = n := by
  by_cases h : n = 0
  · subst h; decide
  · unfold natRepr decValue
    rw [if_neg h]
    show Nat.ofDigits 10
      ((((natDigits n).reverse.map (fun d => Char.ofNat (48 + d))).map
        (fun c => c.toNat - 48)).reverse) = n
    rw [List.map_map, List.map_reverse, List.reverse_reverse]
    have hmap : (natDigits n).map ((fun c => c.toNat - 48) ∘ (fun d => Char.ofNat (48 + d)))
        = (natDigits n).map id := by
      apply List.map_congr_left
      intro d hd
      have hlt : d < 10 := natDigitsAux_lt_ten n n d hd
      simp [Function.comp, char_digit_toNat d hlt]
    rw [hmap, List.map_id]
    exact ofDigits_natDigitsAux n n le_rfl

theorem decValue_prvNonce (t : Int) (h : 0 ≤ t) :
    decValue (prvNonce t) = t.toNat := by
  unfold prvNonce formatInt
  rw [if_neg (not_lt.mpr h)]
  exact decValue_natRepr t.toNat

/-- The form body `newPrvReq` signs and sends: the two escaped parameters
in sorted key order. -/
theorem prvReq_body_eq (c : Client) (now : Int) (m : String) :
    (prvReq c now m).body =
      "method=" ++ queryEscape m ++ "&nonce=" ++ queryEscape (prvNonce now) := by
  show (((queryEscape "method" ++ "=") ++ queryEscape m) ++ "&") ++
      ((queryEscape "nonce" ++ "=") ++ queryEscape (prvNonce now)) = _
  have h1 : queryEscape "method" = "method" := rfl
  have h2 : queryEscape "nonce" = "nonce" := rfl
  rw [h1, h2]
  apply String.ext
  simp [String.data_append, List.append_assoc]

/-! ## Concrete response bodies used in the claims -/

/-- The stub ticker body from the test suite. -/
def tickerBody : String :=
  "\x7b\"ticker\":\x7b\"high\":\"2500\",\"low\":\"2500\",\"last\":\"2500\",\"buy\":\"2500\",\"sell\":\"2500\"\x7d\x7d"

/-- A `getInfo` envelope with `success = 0`. -/
def infoBody0 : String :=
  "\x7b\"success\":0,\"return\":\x7b\"user_id\":\"u1\"\x7d\x7d"

/-- The same `getInfo` envelope with `success = 1`. -/
def infoBody1 : String :=
  "\x7b\"success\":1,\"return\":\x7b\"user_id\":\"u1\"\x7d\x7d"

/-! ## Claim theorems -/

set_option maxRecDepth 10000 in
/-- C1: for every secret, method and nonce, the `Sign` value computed by
`newPrvReq` is the lowercase hex encoding of the HMAC-SHA512 digest of the
encoded form body keyed by the secret; and at secret `"hush"`, method
`"getInfo"`, nonce `"1000"` the body is `method=getInfo&nonce=1000` and the
signature equals the precomputed vector. -/
theorem prvReq_sign_is_hmac_sha512_hex :
    (∀ (c : Client) (now : Int) (m : String),
        List.lookup "Sign" (prvReq c now m).headers =
          some (hexEncode (hmacSha512 (strBytes c.Secret)
            (strBytes (prvReq c now m).body))) ∧
        (prvReq c now m).body =
          "method=" ++ queryEscape m ++ "&nonce=" ++ queryEscape (prvNonce now)) ∧
    (prvReq (New "71239123s" "hush" none) 1000 prvMethodGetInfo).body =
      "method=getInfo&nonce=1000" ∧
    List.lookup "Sign" (prvReq (New "71239123s" "hush" none) 1000 prvMethodGetInfo).headers =
      some "b093e1552730fa19e63e95f3c41f90a9f9d5bbd4c0e581dce0b6f9d693c025da6e77ae345a9a1ef5118e9fe7fc8cad26c5f96c58e6105f21d5fc7f9c8913b5aa" := by
  refine ⟨fun c now m => ⟨rfl, prvReq_body_eq c now m⟩, by decide, by decide⟩

/-- C2: the private builder issues a `POST` to `{domain}/tapi` whose body
is the URL-encoded form holding exactly `method` and `nonce`, with the
`Key`, `Sign` and `Content-Type` headers; the dispatched request is exactly
this one, so the transport's answer to it is what the builder returns. -/
theorem newPrvReq_request_shape :
    ∀ (c : Client) (now : Int) (m : String),
      (prvReq c now m).verb = "POST" ∧
      (prvReq c now m).url = c.Domain ++ "/tapi" ∧
      (prvReq c now m).body =
        "method=" ++ queryEscape m ++ "&nonce=" ++ queryEscape (prvNonce now) ∧
      (prvReq c now m).headers =
        [("Key", c.APIKey),
         ("Sign", hexEncode (hmacSha512 (strBytes c.Secret)
           (strBytes (prvReq c now m).body))),
         ("Content-Type", "application/x-www-form-urlencoded")] ∧
      (∀ (w : World) (b : String),
        w.respond (prvReq c w.now m) = Except.ok b →
          (newPrvReq c w m).1 = Except.ok b) := by
  intro c now m
  refine ⟨rfl, rfl, prvReq_body_eq c now m, rfl, ?_⟩
  intro w b h
  simp [newPrvReq, h]

/-- C2 witness: on a stub transport the builder returns the stub body. -/
theorem newPrvReq_request_shape_witness :
    (newPrvReq (New "k" "hush" none) (constWorld "ok") "getInfo").1 =
      Except.ok "ok" :=
  (newPrvReq_request_shape (New "k" "hush" none) 0 "getInfo").2.2.2.2
    (constWorld "ok") "ok" rfl

/-- C3: the claim says a malformed body makes `GetTrades` return a
`DecodeError`; the source instead logs and discards the decode error, so at
the failing input the decoder does fail, yet `GetTrades` returns the empty
slice with a nil error. -/
theorem getTrades_swallows_decode_error :
    (unmarshalTrades "x").2 = some syntaxErrMsg ∧
    (GetTrades (New "k" "s" none) (constWorld "x")).1 = ([], none) :=
  ⟨rfl, rfl⟩

/-- C4: when the body fails to decode, `GetTrades` and `GetDepth` return
the decoded-so-far (zero on a syntax error) value and a nil error; the
decode error is never propagated. -/
theorem pub_ops_swallow_decode_errors :
    ∀ (c : Client) (w : World),
      ((unmarshalTrades (pubBody c w "/btc_idr/trades")).2.isSome = true →
        (GetTrades c w).1 =
          ((unmarshalTrades (pubBody c w "/btc_idr/trades")).1, none)) ∧
      ((unmarshalDepth (pubBody c w "/btc_idr/depth")).2.isSome = true →
        (GetDepth c w).1 =
          ((unmarshalDepth (pubBody c w "/btc_idr/depth")).1, none)) ∧
      ((parseJson (pubBody c w "/btc_idr/trades")).isNone = true →
        (GetTrades c w).1 = ([], none)) ∧
      ((parseJson (pubBody c w "/btc_idr/depth")).isNone = true →
        (GetDepth c w).1 = (zeroDepth, none)) := by
  intro c w
  refine ⟨fun _ => rfl, fun _ => rfl, ?_, ?_⟩
  · intro h
    have h' := Option.isNone_iff_eq_none.mp h
    show ((unmarshalTrades (pubBody c w "/btc_idr/trades")).1, none) = _
    simp [unmarshalTrades, h']
  · intro h
    have h' := Option.isNone_iff_eq_none.mp h
    show ((unmarshalDepth (pubBody c w "/btc_idr/depth")).1, none) = _
    simp [unmarshalDepth, h']

/-- C4 witness: at the malformed body `]` both operations return their
zero value with a nil error. -/
theorem pub_ops_swallow_decode_errors_witness :
    (GetTrades (New "k" "s" none) (constWorld "]")).1 = ([], none) ∧
    (GetDepth (New "k" "s" none) (constWorld "]")).1 = (zeroDepth, none) :=
  ⟨(pub_ops_swallow_decode_errors (New "k" "s" none) (constWorld "]")).2.2.1 rfl,
   (pub_ops_swallow_decode_errors (New "k" "s" none) (constWorld "]")).2.2.2 rfl⟩

/-- C5: `GetInfo` returns the envelope's `return` field with a nil error,
never reading `success`: a `success = 0` body yields the same result as
the identical `success = 1` body. -/
theorem getInfo_ignores_success_flag :
    (∀ (c : Client) (w : World),
        (GetInfo c w).1 =
          ((unmarshalInfoRes (prvBody c w prvMethodGetInfo)).1.Return, none)) ∧
    (unmarshalInfoRes infoBody0).1.Success = 0 ∧
    (unmarshalInfoRes infoBody1).1.Success = 1 ∧
    (GetInfo (New "k" "s" none) (constWorld infoBody0)).1 =
      (GetInfo (New "k" "s" none) (constWorld infoBody1)).1 ∧
    (GetInfo (New "k" "s" none) (constWorld infoBody0)).1.2 = none ∧
    (GetInfo (New "k" "s" none) (constWorld infoBody0)).1.1.UserID = "u1" := by
  exact ⟨fun c w => rfl, rfl, rfl, rfl, rfl, rfl⟩

/-- C6: `New` copies the credentials, sets the production domain, keeps a
non-nil transport exactly, and substitutes the default client for `nil`. -/
theorem New_sets_fields :
    ∀ (APIKey Secret : String) (t : HTTPClientRef),
      (New APIKey Secret none).APIKey = APIKey ∧
      (New APIKey Secret none).Secret = Secret ∧
      (New APIKey Secret none).Domain = "https://vip.bitcoin.co.id" ∧
      (New APIKey Secret none).HTTPClient = HTTPClientRef.defaultClient ∧
      (New APIKey Secret (some t)).APIKey = APIKey ∧
      (New APIKey Secret (some t)).Secret = Secret ∧
      (New APIKey Secret (some t)).Domain = "https://vip.bitcoin.co.id" ∧
      (New APIKey Secret (some t)).HTTPClient = t :=
  fun _ _ _ => ⟨rfl, rfl, rfl, rfl, rfl, rfl, rfl, rfl⟩

/-- C7: on the stub ticker body `GetTicker` returns the all-`2500` ticker
and a nil error; on any body the envelope decoder rejects, it returns the
zero ticker and a `DecodeError`. -/
theorem getTicker_envelope_and_errors :
    (GetTicker (New "k" "s" none) (constWorld tickerBody)).1 =
      ({ High := "2500", Low := "2500", Last := "2500", Buy := "2500",
         Sell := "2500" }, none) ∧
    (∀ (c : Client) (w : World),
      (unmarshalTickerEnv (pubBody c w "/btc_idr/ticker")).2.isSome = true →
        ∃ msg, (GetTicker c w).1 =
          (zeroTicker, some (GoError.decodeError msg))) := by
  refine ⟨rfl, ?_⟩
  intro c w h
  cases hq : (unmarshalTickerEnv (pubBody c w "/btc_idr/ticker")).2 with
  | none => rw [hq] at h; simp at h
  | some e => exact ⟨e, by simp [GetTicker, hq]⟩

/-- C7 witness: a bare-array body is rejected with a `DecodeError`. -/
theorem getTicker_envelope_and_errors_witness :
    ∃ msg, (GetTicker (New "k" "s" none) (constWorld "[]")).1 =
      (zeroTicker, some (GoError.decodeError msg)) :=
  getTicker_envelope_and_errors.2 (New "k" "s" none) (constWorld "[]") rfl

/-- C8: the nonce is the Unix-seconds clock rendered in decimal, so with
the clock at integer seconds `t1 ≤ t2`, the two nonces strictly increase
exactly when the calls are at least one second apart, and calls in the
same second produce equal nonces. -/
theorem prvNonce_strictly_increasing_iff (t1 t2 : Int)
    (h0 : 0 ≤ t1) (h12 : t1 ≤ t2) :
    prvNonce t1 = formatInt t1 ∧
    (decValue (prvNonce t1) < decValue (prvNonce t2) ↔ t1 + 1 ≤ t2) ∧
    (t1 = t2 → prvNonce t1 = prvNonce t2) := by
  refine ⟨rfl, ?_, fun h => by rw [h]⟩
  rw [decValue_prvNonce t1 h0, decValue_prvNonce t2 (le_trans h0 h12)]
  omega

/-- C8 witness: clocks 1000 and 1001 give strictly increasing nonces. -/
theorem prvNonce_strictly_increasing_iff_witness :
    decValue (prvNonce 1000) < decValue (prvNonce 1001) :=
  ((prvNonce_strictly_increasing_iff 1000 1001 (by decide)
    (by decide)).2.1).mpr (by decide)

/-- C9: no operation or builder writes to the receiver: the client state
at return always equals the client state at entry. -/
theorem client_state_unchanged :
    ∀ (c : Client) (w : World) (m e : String),
      (newPrvReq c w m).2 = c ∧ (newPubReq c w e).2 = c ∧
      (GetTicker c w).2 = c ∧ (GetTrades c w).2 = c ∧
      (GetDepth c w).2 = c ∧ (GetInfo c w).2 = c := by
  intro c w m e
  refine ⟨?_, ?_, ?_, rfl, rfl, rfl⟩
  · unfold newPrvReq
    split <;> rfl
  · cases hq : w.respond
        { verb := "GET", url := c.Domain ++ pubAPIEndpoint ++ e,
          body := "", headers := [] } <;>
      simp [newPubReq, hq]
  · cases hq : (unmarshalTickerEnv (pubBody c w "/btc_idr/ticker")).2 <;>
      simp [GetTicker, hq]

/-- C10: `GetTrades`, `GetDepth` and `GetInfo` return a nil error on every
outcome, including a failing transport, while `GetTicker` does surface a
decode error. -/
theorem only_getTicker_returns_error :
    (∀ (c : Client) (w : World),
        (GetTrades c w).1.2 = none ∧ (GetDepth c w).1.2 = none ∧
        (GetInfo c w).1.2 = none) ∧
    (GetTrades (New "k" "s" none) errWorld).1 = ([], none) ∧
    (GetDepth (New "k" "s" none) errWorld).1 = (zeroDepth, none) ∧
    (GetInfo (New "k" "s" none) errWorld).1 = (zeroUserInfo, none) ∧
    (GetTicker (New "k" "s" none) (constWorld "not json")).1.2 =
      some (GoError.decodeError syntaxErrMsg) :=
  ⟨fun _ _ => ⟨rfl, rfl, rfl⟩, rfl, rfl, rfl, rfl⟩

end Btcid
